import Mathlib

/-
Shallow embedding of the MicroPython HTU31D driver
(src/micropython_htu31d/htu31d.py).

The bus transport (machine.I2C) is modelled abstractly: a flag saying whether
writes succeed, and the byte stream the device returns on a read.  Python
floats are modelled as exact rationals; the fixed sleeps are not modelled.
Python exceptions are mapped to the abstract error taxonomy of the design:
bus failures to transport, the RuntimeError raised on a CRC mismatch to
checksum, and the AttributeError and ValueError raised on bad setter inputs
to invalidArgument.  An operation returns its post state even when it raises,
because in Python the attribute mutations done before the raise persist.
-/

/-- Error kinds of the driver: transport for bus failures, checksum for the
RuntimeError on a CRC mismatch, invalidArgument for the AttributeError and
ValueError raised on bad setter inputs. -/
inductive Err where
  | transport
  | checksum
  | invalidArgument
deriving DecidableEq

/-- Python runtime values, as far as the driver surface needs them: the heater
setter receives an arbitrary value and checks isinstance(new_mode, bool), and
struct.unpack returns a tuple of ints. -/
inductive PyVal where
  | int : Nat → PyVal
  | bool : Bool → PyVal
  | str : String → PyVal
  | tuple : List PyVal → PyVal

/-- Abstract model of the injected machine.I2C transport: writeOk tells
whether writes to the device succeed, and readByte i is the i-th byte the
device returns during a read transaction. -/
structure I2C where
  writeOk : Bool
  readByte : Nat → Nat

/-- One i2c.writeto call: none on success, the transport error when the bus
write fails. -/
def I2C.writeto (bus : I2C) : Option Err :=
  if bus.writeOk then none else some Err.transport

/-- The mutable state of an HTU31D session object: the device address, the
_conversion_command register byte and the cached _heater flag.  In the source
the _heater attribute only comes into existence at the end of __init__; a
total model must give the field a value from the start, and the placeholder
coincides with the value the constructor assigns. -/
structure HTU31D where
  address : Nat
  _conversion_command : Nat
  _heater : Bool
deriving DecidableEq

def _READSERIAL : Nat := 0x0A
def _SOFTRESET : Nat := 0x1E
def _HEATERON : Nat := 0x04
def _HEATEROFF : Nat := 0x02
def _CONVERSION : Nat := 0x40
def _READTEMPHUM : Nat := 0x00

def _HUMIDITY_RES : List String := ["0.020%", "0.014%", "0.010%", "0.007%"]
def _TEMP_RES : List String := ["0.040", "0.025", "0.016", "0.012"]

/-- HTU31D.reset: sets _conversion_command back to _CONVERSION, then writes
the soft-reset opcode and sleeps 15 ms (the sleep is not modelled).  The
register assignment happens before the bus write, exactly as in the source,
so it persists even when the write raises. -/
def HTU31D.reset (bus : I2C) (st : HTU31D) : HTU31D × List (List Nat) × Option Err :=
  let st1 := { st with _conversion_command := _CONVERSION }
  (st1, [[_SOFTRESET]], bus.writeto)

/-- HTU31D.__init__: stores the address, sets _conversion_command, calls
reset (which writes the soft-reset opcode), then caches _heater := false. -/
def HTU31D.init (bus : I2C) (address : Nat) : HTU31D × List (List Nat) × Option Err :=
  let st0 : HTU31D := { address := address, _conversion_command := _CONVERSION, _heater := false }
  let r := HTU31D.reset bus st0
  ({ r.1 with _heater := false }, r.2.1, r.2.2)

/-- HTU31D.heater property getter: pure read of the cached flag, no bus
activity. -/
def HTU31D.heater (st : HTU31D) : Bool := st._heater

/-- HTU31D.heater property setter: checks isinstance(new_mode, bool) and
raises on anything else, caches the new mode, then writes the heater opcode.
The cache update happens before the bus write, exactly as in the source, so
it persists even when the write raises. -/
def HTU31D.heater_set (bus : I2C) (st : HTU31D) (new_mode : PyVal) :
    HTU31D × List (List Nat) × Option Err :=
  match new_mode with
  | PyVal.bool b =>
    let st1 := { st with _heater := b }
    let payload := if b then [_HEATERON] else [_HEATEROFF]
    (st1, [payload], bus.writeto)
  | _ => (st, [], some Err.invalidArgument)

/-- struct.unpack of one big-endian u32 field: a one-element tuple holding
the value of the four buffer bytes. -/
def unpack_u32_be (b0 b1 b2 b3 : Nat) : PyVal :=
  PyVal.tuple [PyVal.int (((b0 * 256 + b1) * 256 + b2) * 256 + b3)]

/-- HTU31D.serial_number property: writes _READSERIAL, reads 4 bytes into the
4-byte _buffer, and returns struct.unpack of the buffer, which is a
one-element tuple. -/
def HTU31D.serial_number (bus : I2C) (st : HTU31D) : List (List Nat) × Except Err PyVal :=
  match bus.writeto with
  | some e => ([[_READSERIAL]], Except.error e)
  | none =>
    ([[_READSERIAL]],
     Except.ok (unpack_u32_be (bus.readByte 0) (bus.readByte 1) (bus.readByte 2) (bus.readByte 3)))

/-- Python a AND NOT b for nonnegative ints: the bits of a not set in b.
Stated with xor and land so that the kernel can evaluate it; it is proved
equal to Nat.ldiff (the textbook AND-NOT) below. -/
def andNot (a b : Nat) : Nat := a ^^^ (a &&& b)

/-- The body of one iteration of the while loop of HTU31D._crc: when the bit
at the msb marker position of result is set, xor result with the polynomial
on the masked high bits and recombine with the untouched low bits (the
Python expression result AND NOT mask is the andNot above). -/
def crcStep (polynom msb mask result : Nat) : Nat :=
  if result &&& msb ≠ 0 then ((result ^^^ polynom) &&& mask) ||| andNot result mask
  else result

/-- The while loop of HTU31D._crc, with explicit fuel: it iterates while msb
is not 0x80, shifting msb, mask and polynom right by one each iteration, and
returns none when the fuel runs out before the guard fails.  The loop is
proved below to need exactly 16 iterations. -/
def crcWhile (fuel result msb mask polynom : Nat) : Option Nat :=
  if msb = 0x80 then some result
  else
    match fuel with
    | 0 => none
    | f + 1 => crcWhile f (crcStep polynom msb mask result) (msb >>> 1) (mask >>> 1) (polynom >>> 1)

/-- HTU31D._crc: seeds the 24-bit working value with the input shifted left
by 8 and runs the loop.  16 units of fuel are enough (proved below), so the
getD default is never reached. -/
def HTU31D._crc (value : Nat) : Nat :=
  (crcWhile 16 (value <<< 8) 0x800000 0xFF8000 0x988000).getD 0

/-- HTU31D.measurements property: writes the current _conversion_command,
sleeps 30 ms (not modelled), writes _READTEMPHUM, reads 6 bytes, unpacks them
big-endian as u16 temperature, u8 crc, u16 humidity, u8 crc, validates both
CRCs (raising the checksum error on mismatch) and converts to physical
units. -/
def HTU31D.measurements (bus : I2C) (st : HTU31D) : List (List Nat) × Except Err (ℚ × ℚ) :=
  match bus.writeto with
  | some e => ([[st._conversion_command]], Except.error e)
  | none =>
    match bus.writeto with
    | some e => ([[st._conversion_command], [_READTEMPHUM]], Except.error e)
    | none =>
      let temperature := bus.readByte 0 * 256 + bus.readByte 1
      let temp_crc := bus.readByte 2
      let humidity := bus.readByte 3 * 256 + bus.readByte 4
      let humidity_crc := bus.readByte 5
      if temp_crc ≠ HTU31D._crc temperature ∨ humidity_crc ≠ HTU31D._crc humidity then
        ([[st._conversion_command], [_READTEMPHUM]], Except.error Err.checksum)
      else
        ([[st._conversion_command], [_READTEMPHUM]],
         Except.ok (-40 + 165 * (temperature : ℚ) / 65535,
                    max (min (100 * (humidity : ℚ) / 65535) 100) 0))

/-- HTU31D.temperature property: first component of measurements. -/
def HTU31D.temperature (bus : I2C) (st : HTU31D) : List (List Nat) × Except Err ℚ :=
  let r := HTU31D.measurements bus st
  (r.1, r.2.map Prod.fst)

/-- HTU31D.relative_humidity property: second component of measurements. -/
def HTU31D.relative_humidity (bus : I2C) (st : HTU31D) : List (List Nat) × Except Err ℚ :=
  let r := HTU31D.measurements bus st
  (r.1, r.2.map Prod.snd)

/-- HTU31D.humidity_resolution property getter: indexes _HUMIDITY_RES with
bits 3 and 4 of the register.  Tuple indexing is modelled with get?, proved
below to always succeed; no bus access happens. -/
def HTU31D.humidity_resolution (st : HTU31D) : Option String :=
  _HUMIDITY_RES.get? ((st._conversion_command >>> 3) &&& 3)

/-- HTU31D.humidity_resolution setter: rejects labels outside _HUMIDITY_RES,
clears bits 3 and 4 of the register and ors in the index of the label shifted
into position.  No bus access happens. -/
def HTU31D.humidity_resolution_set (st : HTU31D) (value : String) : HTU31D × Option Err :=
  if value ∉ _HUMIDITY_RES then (st, some Err.invalidArgument)
  else
    let register := st._conversion_command &&& 0xE7
    let hum_res := _HUMIDITY_RES.indexOf value
    ({ st with _conversion_command := register ||| hum_res <<< 3 }, none)

/-- HTU31D.temp_resolution property getter: indexes _TEMP_RES with bits 1 and
2 of the register.  Tuple indexing is modelled with get?, proved below to
always succeed; no bus access happens. -/
def HTU31D.temp_resolution (st : HTU31D) : Option String :=
  _TEMP_RES.get? ((st._conversion_command >>> 1) &&& 3)

/-- HTU31D.temp_resolution setter: rejects labels outside _TEMP_RES, clears
bits 1 and 2 of the register and ors in the index of the label shifted into
position.  No bus access happens. -/
def HTU31D.temp_resolution_set (st : HTU31D) (value : String) : HTU31D × Option Err :=
  if value ∉ _TEMP_RES then (st, some Err.invalidArgument)
  else
    let register := st._conversion_command &&& 0xF9
    let temp_res := _TEMP_RES.indexOf value
    ({ st with _conversion_command := register ||| temp_res <<< 1 }, none)

/-- The session states reachable through construction, reset and the two
resolution setters. -/
inductive Reachable : HTU31D → Prop where
  | init : ∀ bus address, Reachable (HTU31D.init bus address).1
  | reset : ∀ bus st, Reachable st → Reachable (HTU31D.reset bus st).1
  | humiditySet : ∀ st v, Reachable st → Reachable (HTU31D.humidity_resolution_set st v).1
  | tempSet : ∀ st v, Reachable st → Reachable (HTU31D.temp_resolution_set st v).1

/-! Auxiliary lemmas. -/

/-- The andNot encoding agrees with Nat.ldiff, the bitwise AND-NOT. -/
lemma andNot_eq_ldiff (a b : Nat) : andNot a b = Nat.ldiff a b := by
  apply Nat.eq_of_testBit_eq
  intro i
  simp only [andNot, Nat.testBit_xor, Nat.testBit_and, Nat.testBit_ldiff]
  cases a.testBit i <;> cases b.testBit i <;> rfl

/-- A number below 2 to the k plus 1 whose bit k is clear is below 2 to
the k. -/
lemma lt_two_pow_of_testBit_false {x k : Nat} (hx : x < 2 ^ (k + 1))
    (hb : x.testBit k = false) : x < 2 ^ k := by
  have hpos : 0 < 2 ^ k := Nat.two_pow_pos k
  have hdiv : x / 2 ^ k < 2 := by
    rw [Nat.div_lt_iff_lt_mul hpos]
    calc x < 2 ^ (k + 1) := hx
    _ = 2 * 2 ^ k := by ring
  rw [Nat.testBit_to_div_mod] at hb
  have hne : ¬ (x / 2 ^ k % 2 = 1) := of_decide_eq_false hb
  have h0 : x / 2 ^ k = 0 := by
    generalize hd : x / 2 ^ k = d at hdiv hne
    omega
  have hdm := Nat.div_add_mod x (2 ^ k)
  rw [h0, Nat.mul_zero, Nat.zero_add] at hdm
  rw [← hdm]
  exact Nat.mod_lt _ hpos

/-- One crc iteration shrinks the working value below the msb marker: if the
working value is below twice the marker before the step, it is below the
marker after it, because the step clears the marker bit when it is set. -/
lemma crcStep_lt {k p m r : Nat} (hp : p < 2 ^ (k + 1)) (hpk : p.testBit k = true)
    (hm : m < 2 ^ (k + 1)) (hmk : m.testBit k = true) (hr : r < 2 ^ (k + 1)) :
    crcStep p (2 ^ k) m r < 2 ^ k := by
  unfold crcStep
  by_cases hbit : r &&& 2 ^ k ≠ 0
  · rw [if_pos hbit]
    have hrk : r.testBit k = true := by
      rcases Bool.eq_false_or_eq_true (r.testBit k) with ht | hf
      · exact ht
      · exfalso
        apply hbit
        rw [Nat.and_two_pow, hf]
        simp
    have hxor : r ^^^ p < 2 ^ k := by
      apply lt_two_pow_of_testBit_false (Nat.xor_lt_two_pow hr hp)
      simp [Nat.testBit_xor, hrk, hpk]
    have hA : (r ^^^ p) &&& m < 2 ^ k := Nat.lt_of_le_of_lt Nat.and_le_left hxor
    have hB : andNot r m < 2 ^ k := by
      apply lt_two_pow_of_testBit_false
      · exact Nat.xor_lt_two_pow hr (Nat.lt_of_le_of_lt Nat.and_le_left hr)
      · simp [andNot, Nat.testBit_xor, Nat.testBit_and, hrk, hmk]
    exact Nat.or_lt_two_pow hA hB
  · rw [if_neg hbit]
    push_neg at hbit
    have hrk : r.testBit k = false := by
      rcases Bool.eq_false_or_eq_true (r.testBit k) with ht | hf
      · rw [Nat.and_two_pow, ht] at hbit
        simp at hbit
      · exact hf
    exact lt_two_pow_of_testBit_false hr hrk

/-- Whenever the crc loop is started with msb equal to 2 to the k, fuel k
minus 7, and polynomial and mask below 2 to the k plus 1 with their bit k
set, any value it returns is below 256. -/
lemma crcWhile_lt (fuel : Nat) : ∀ k r msb mask p, msb = 2 ^ k → 7 ≤ k → k = fuel + 7 →
    p < 2 ^ (k + 1) → p.testBit k = true → mask < 2 ^ (k + 1) → mask.testBit k = true →
    r < 2 ^ (k + 1) → ∀ out, crcWhile fuel r msb mask p = some out → out < 256 := by
  induction fuel with
  | zero =>
    intro k r msb mask p hmsb hk7 hkf hp hpk hm hmk hr out hout
    subst hkf hmsb
    rw [crcWhile, if_pos (by norm_num)] at hout
    cases hout
    simpa using hr
  | succ f ih =>
    intro k r msb mask p hmsb hk7 hkf hp hpk hm hmk hr out hout
    subst hkf hmsb
    have hne : (2 : Nat) ^ (f + 1 + 7) ≠ 0x80 := by
      have : (2 : Nat) ^ 8 ≤ 2 ^ (f + 1 + 7) := Nat.pow_le_pow_right (by norm_num) (by omega)
      norm_num at this ⊢
      omega
    rw [crcWhile, if_neg hne] at hout
    have hk1 : f + 1 + 7 - 1 = f + 7 := by omega
    have hshift : ∀ x : Nat, x >>> 1 = x / 2 := fun x => Nat.shiftRight_eq_div_pow x 1
    have hmsb1 : (2 : Nat) ^ (f + 1 + 7) >>> 1 = 2 ^ (f + 7) := by
      have e1 : f + 1 + 7 = (f + 7) + 1 := by omega
      rw [hshift, e1, Nat.pow_succ, Nat.mul_div_cancel _ (by norm_num : (0:Nat) < 2)]
    have hhalf : ∀ x : Nat, x < 2 ^ (f + 1 + 7 + 1) → x >>> 1 < 2 ^ (f + 7 + 1) := by
      intro x hx
      rw [hshift, Nat.div_lt_iff_lt_mul (by norm_num : (0:Nat) < 2)]
      have e1 : f + 1 + 7 + 1 = (f + 7 + 1) + 1 := by omega
      rw [e1, Nat.pow_succ] at hx
      exact hx
    have hbit : ∀ x : Nat, x.testBit (f + 1 + 7) = true → (x >>> 1).testBit (f + 7) = true := by
      intro x hx
      rw [Nat.testBit_shiftRight]
      have : 1 + (f + 7) = f + 1 + 7 := by omega
      rw [this]
      exact hx
    refine ih (f + 7) _ _ _ _ hmsb1 (by omega) rfl (hhalf _ hp) (hbit _ hpk)
      (hhalf _ hm) (hbit _ hmk) ?_ out hout
    have hstep : crcStep p (2 ^ (f + 1 + 7)) mask r < 2 ^ (f + 1 + 7) :=
      crcStep_lt hp hpk hm hmk hr
    exact hstep

/-- Bound on the crc output for 16-bit inputs. -/
lemma crc_lt {v : Nat} (hv : v < 65536) : HTU31D._crc v < 256 := by
  have hs : (crcWhile 16 (v <<< 8) 0x800000 0xFF8000 0x988000).isSome = true := by
    simp [crcWhile]
  obtain ⟨out, hout⟩ := Option.isSome_iff_exists.mp hs
  have he : HTU31D._crc v = out := by rw [HTU31D._crc, hout]; rfl
  rw [he]
  have h0 : v <<< 8 < 2 ^ (23 + 1) := by
    rw [Nat.shiftLeft_eq]
    norm_num
    omega
  exact crcWhile_lt 16 23 _ _ _ _ (by norm_num) (by norm_num) (by norm_num)
    (by norm_num) (by decide) (by norm_num) (by decide) h0 out hout

/-- A list index below the length always yields an element of the list. -/
lemma exists_get?_of_lt {α : Type} (l : List α) (i : Nat) (h : i < l.length) :
    ∃ x, x ∈ l ∧ l.get? i = some x :=
  ⟨l.get ⟨i, h⟩, List.get_mem l i h, List.get?_eq_get h⟩

/-! Claim theorems. -/

/-- C6: for every 16-bit input, the marker-shifting loop of HTU31D._crc
executes exactly 16 iterations (16 units of fuel return a value where 15 run
out before the marker reaches 0x80), and the returned result equals its own
low 8 bits, lying in the range 0 to 255. -/
theorem C6_crc_terminates_in_16 (value : Nat) (h : value < 65536) :
    crcWhile 16 (value <<< 8) 0x800000 0xFF8000 0x988000 = some (HTU31D._crc value) ∧
    crcWhile 15 (value <<< 8) 0x800000 0xFF8000 0x988000 = none ∧
    HTU31D._crc value < 256 ∧ HTU31D._crc value % 256 = HTU31D._crc value := by
  have hlt := crc_lt h
  refine ⟨?_, ?_, hlt, Nat.mod_eq_of_lt hlt⟩
  · have hs : (crcWhile 16 (value <<< 8) 0x800000 0xFF8000 0x988000).isSome = true := by
      simp [crcWhile]
    obtain ⟨out, hout⟩ := Option.isSome_iff_exists.mp hs
    rw [hout, HTU31D._crc, hout]
    rfl
  · simp [crcWhile]

/-- C6 witness at the concrete input 0x1234. -/
theorem C6_witness : 0x1234 < 65536 ∧
    (crcWhile 16 (0x1234 <<< 8) 0x800000 0xFF8000 0x988000 = some (HTU31D._crc 0x1234) ∧
     crcWhile 15 (0x1234 <<< 8) 0x800000 0xFF8000 0x988000 = none ∧
     HTU31D._crc 0x1234 < 256 ∧ HTU31D._crc 0x1234 % 256 = HTU31D._crc 0x1234) :=
  ⟨by norm_num, C6_crc_terminates_in_16 0x1234 (by norm_num)⟩

/-- C9: reset sets the command register back to the base conversion opcode
0x40 and leaves the cached heater flag unchanged, for every bus and state. -/
theorem C9_reset_frame (bus : I2C) (st : HTU31D) :
    (HTU31D.reset bus st).1._conversion_command = 0x40 ∧
    (HTU31D.reset bus st).1._heater = st._heater :=
  ⟨rfl, rfl⟩

/-- C10: for every register value the resolution getters never fail and
return a label of their fixed lookup table, because the extracted 2-bit index
is always below 4; they take no bus argument and are pure functions of the
state. -/
theorem C10_getters_total (st : HTU31D) :
    (st._conversion_command >>> 3) &&& 3 < 4 ∧
    (st._conversion_command >>> 1) &&& 3 < 4 ∧
    (∃ x, x ∈ _HUMIDITY_RES ∧ HTU31D.humidity_resolution st = some x) ∧
    (∃ x, x ∈ _TEMP_RES ∧ HTU31D.temp_resolution st = some x) := by
  have h1 : (st._conversion_command >>> 3) &&& 3 < 4 :=
    Nat.lt_of_le_of_lt Nat.and_le_right (by norm_num)
  have h2 : (st._conversion_command >>> 1) &&& 3 < 4 :=
    Nat.lt_of_le_of_lt Nat.and_le_right (by norm_num)
  refine ⟨h1, h2, ?_, ?_⟩
  · exact exists_get?_of_lt _ _ (by simpa [_HUMIDITY_RES] using h1)
  · exact exists_get?_of_lt _ _ (by simpa [_TEMP_RES] using h2)

/-- C5: when either transmitted crc byte differs from the checksum of its raw
value, measurements fails with the checksum error and returns no values. -/
theorem C5_checksum_mismatch (bus : I2C) (st : HTU31D) (hw : bus.writeOk = true)
    (hbad : bus.readByte 2 ≠ HTU31D._crc (bus.readByte 0 * 256 + bus.readByte 1) ∨
            bus.readByte 5 ≠ HTU31D._crc (bus.readByte 3 * 256 + bus.readByte 4)) :
    (HTU31D.measurements bus st).2 = Except.error Err.checksum := by
  have hw2 : bus.writeto = none := by simp [I2C.writeto, hw]
  simp only [HTU31D.measurements, hw2]
  split
  · rfl
  · rename_i hcond
    exact absurd hbad hcond

/-- C5 witness: a payload whose temperature crc byte is wrong. -/
theorem C5_witness :
    (HTU31D.measurements
        { writeOk := true, readByte := fun i => if i = 2 then 99 else 0 }
        { address := 0x40, _conversion_command := 0x40, _heater := false }).2 =
      Except.error Err.checksum :=
  C5_checksum_mismatch _ _ rfl (Or.inl (by decide))

/-- C4: for payloads passing checksum validation, measurements returns the
temperature minus 40 plus 165 times the raw value over 65535, and the
humidity 100 times the raw value over 65535 clamped to the closed interval
from 0 to 100. -/
theorem C4_conversion_formulas (bus : I2C) (st : HTU31D) (hw : bus.writeOk = true)
    (ht : bus.readByte 2 = HTU31D._crc (bus.readByte 0 * 256 + bus.readByte 1))
    (hh : bus.readByte 5 = HTU31D._crc (bus.readByte 3 * 256 + bus.readByte 4)) :
    (HTU31D.measurements bus st).2 =
      Except.ok
        (-40 + 165 * ((bus.readByte 0 * 256 + bus.readByte 1 : Nat) : ℚ) / 65535,
         max (min (100 * ((bus.readByte 3 * 256 + bus.readByte 4 : Nat) : ℚ) / 65535) 100) 0) := by
  have hw2 : bus.writeto = none := by simp [I2C.writeto, hw]
  simp only [HTU31D.measurements, hw2]
  split
  · rename_i hcond
    rcases hcond with hx | hx
    · exact absurd ht hx
    · exact absurd hh hx
  · rfl

/-- C4 witness: raw temperature 65535 with its correct crc 45 and raw
humidity 0 with its correct crc 0 convert to 125 degrees and 0 percent. -/
theorem C4_witness :
    (HTU31D.measurements
        { writeOk := true,
          readByte := fun i => if i = 0 then 255 else if i = 1 then 255 else if i = 2 then 45 else 0 }
        { address := 0x40, _conversion_command := 0x40, _heater := false }).2 =
      Except.ok (125, 0) := by
  rw [(C4_conversion_formulas _ _ rfl (by decide) (by decide))]
  norm_num [min_def, max_def]

/-- C1 counterexample: with a failing bus and a cached flag false, requesting
heater true surfaces the transport error yet leaves the cache changed to
true: the cached flag is not left unchanged by the failed write. -/
theorem C1_counterexample :
    (HTU31D.heater_set { writeOk := false, readByte := fun _ => 0 }
        { address := 0x40, _conversion_command := 0x40, _heater := false }
        (PyVal.bool true)).2.2 = some Err.transport ∧
    ¬ ((HTU31D.heater_set { writeOk := false, readByte := fun _ => 0 }
        { address := 0x40, _conversion_command := 0x40, _heater := false }
        (PyVal.bool true)).1._heater =
       ({ address := 0x40, _conversion_command := 0x40, _heater := false } : HTU31D)._heater) := by
  constructor
  · rfl
  · decide

/-- C1 amended: when the bus write fails while setting the heater, the
transport error is surfaced, but the cached flag has already been updated to
the requested value (the source caches the mode before writing), so it is not
left at its previous value when the two differ. -/
theorem C1_heater_cache_updated_on_failure (bus : I2C) (st : HTU31D) (b : Bool)
    (hw : bus.writeOk = false) :
    (HTU31D.heater_set bus st (PyVal.bool b)).2.2 = some Err.transport ∧
    (HTU31D.heater_set bus st (PyVal.bool b)).1._heater = b := by
  constructor
  · simp [HTU31D.heater_set, I2C.writeto, hw]
  · rfl

/-- C1 witness at a concrete failing bus and state. -/
theorem C1_witness :
    ({ writeOk := false, readByte := fun _ => 0 } : I2C).writeOk = false ∧
    ((HTU31D.heater_set { writeOk := false, readByte := fun _ => 0 }
        { address := 0x40, _conversion_command := 0x47, _heater := false }
        (PyVal.bool true)).2.2 = some Err.transport ∧
     (HTU31D.heater_set { writeOk := false, readByte := fun _ => 0 }
        { address := 0x40, _conversion_command := 0x47, _heater := false }
        (PyVal.bool true)).1._heater = true) :=
  ⟨rfl, C1_heater_cache_updated_on_failure _ _ _ rfl⟩

/-- C2 counterexample: with device bytes 0, 0, 0, 1 the serial number read
returns the one-element tuple containing 1 rather than the bare unsigned
integer 1, so the operation does not return a single integer value. -/
theorem C2_counterexample :
    ¬ ((HTU31D.serial_number { writeOk := true, readByte := fun i => if i = 3 then 1 else 0 }
          { address := 0x40, _conversion_command := 0x40, _heater := false }).2 =
        Except.ok (PyVal.int 1)) := by
  intro h
  have h2 := Except.ok.inj h
  exact PyVal.noConfusion h2

/-- C2 amended: the serial number read writes opcode 0x0A, depends only on
the first 4 bytes the device returns, and yields a one-element tuple whose
sole element is the big-endian 32-bit value of those bytes, which is below 2
to the 32 whenever the four bytes are below 256. -/
theorem C2_serial_number_tuple (bus : I2C) (st : HTU31D) (hw : bus.writeOk = true)
    (hb : ∀ i, i < 4 → bus.readByte i < 256) :
    (HTU31D.serial_number bus st).1 = [[0x0A]] ∧
    (HTU31D.serial_number bus st).2 =
      Except.ok (PyVal.tuple [PyVal.int
        (((bus.readByte 0 * 256 + bus.readByte 1) * 256 + bus.readByte 2) * 256 + bus.readByte 3)]) ∧
    ((bus.readByte 0 * 256 + bus.readByte 1) * 256 + bus.readByte 2) * 256 + bus.readByte 3 < 2 ^ 32 ∧
    ∀ bus2 : I2C, bus2.writeOk = true → (∀ i, i < 4 → bus2.readByte i = bus.readByte i) →
      (HTU31D.serial_number bus2 st).2 = (HTU31D.serial_number bus st).2 := by
  have hwn : bus.writeto = none := by simp [I2C.writeto, hw]
  refine ⟨?_, ?_, ?_, ?_⟩
  · simp [HTU31D.serial_number, hwn, _READSERIAL]
  · simp [HTU31D.serial_number, hwn, unpack_u32_be]
  · have h0 := hb 0 (by norm_num)
    have h1 := hb 1 (by norm_num)
    have h2 := hb 2 (by norm_num)
    have h3 := hb 3 (by norm_num)
    norm_num
    omega
  · intro bus2 hw2 hbeq
    have hwn2 : bus2.writeto = none := by simp [I2C.writeto, hw2]
    simp [HTU31D.serial_number, hwn, hwn2, unpack_u32_be,
      hbeq 0 (by norm_num), hbeq 1 (by norm_num), hbeq 2 (by norm_num), hbeq 3 (by norm_num)]

/-- C2 witness: bytes 0x12 0x34 0x56 0x78 give the tuple holding
0x12345678. -/
theorem C2_witness :
    (HTU31D.serial_number
        { writeOk := true,
          readByte := fun i =>
            if i = 0 then 0x12 else if i = 1 then 0x34 else if i = 2 then 0x56 else
              if i = 3 then 0x78 else 0 }
        { address := 0x40, _conversion_command := 0x40, _heater := false }).2 =
      Except.ok (PyVal.tuple [PyVal.int 0x12345678]) := by
  rw [(C2_serial_number_tuple _ _ rfl (by decide)).2.1]
  norm_num

/-- C8: non-boolean heater inputs and resolution labels outside the
four-element tables are rejected with the invalid-argument error, with no bus
write attempted and the state unchanged. -/
theorem C8_invalid_inputs_rejected (bus : I2C) (st : HTU31D) :
    (∀ v : PyVal, (∀ b : Bool, v ≠ PyVal.bool b) →
      HTU31D.heater_set bus st v = (st, [], some Err.invalidArgument)) ∧
    (∀ s : String, s ∉ _HUMIDITY_RES →
      HTU31D.humidity_resolution_set st s = (st, some Err.invalidArgument)) ∧
    (∀ s : String, s ∉ _TEMP_RES →
      HTU31D.temp_resolution_set st s = (st, some Err.invalidArgument)) := by
  refine ⟨?_, ?_, ?_⟩
  · intro v hv
    cases v with
    | int n => rfl
    | bool b => exact absurd rfl (hv b)
    | str s => rfl
    | tuple l => rfl
  · intro s hs
    rw [HTU31D.humidity_resolution_set, if_pos hs]
  · intro s hs
    rw [HTU31D.temp_resolution_set, if_pos hs]

/-- C8 witness: the integer 3 as heater input and the label 0.099 as either
resolution input are all rejected without touching the state. -/
theorem C8_witness :
    HTU31D.heater_set { writeOk := true, readByte := fun _ => 0 }
        { address := 0x40, _conversion_command := 0x40, _heater := false } (PyVal.int 3) =
      ({ address := 0x40, _conversion_command := 0x40, _heater := false }, [],
        some Err.invalidArgument) ∧
    HTU31D.humidity_resolution_set
        { address := 0x40, _conversion_command := 0x40, _heater := false } "0.099" =
      ({ address := 0x40, _conversion_command := 0x40, _heater := false },
        some Err.invalidArgument) ∧
    HTU31D.temp_resolution_set
        { address := 0x40, _conversion_command := 0x40, _heater := false } "0.099" =
      ({ address := 0x40, _conversion_command := 0x40, _heater := false },
        some Err.invalidArgument) := by
  obtain ⟨h1, h2, h3⟩ := C8_invalid_inputs_rejected
    { writeOk := true, readByte := fun _ => 0 }
    { address := 0x40, _conversion_command := 0x40, _heater := false }
  exact ⟨h1 _ (fun b hb => PyVal.noConfusion hb), h2 _ (by decide), h3 _ (by decide)⟩

/-- Unfolding of the humidity resolution setter on a valid label. -/
lemma humidity_set_register (st : HTU31D) {v : String} (hv : v ∈ _HUMIDITY_RES) :
    HTU31D.humidity_resolution_set st v =
      ({ st with _conversion_command :=
          (st._conversion_command &&& 0xE7) ||| (_HUMIDITY_RES.indexOf v) <<< 3 }, none) := by
  rw [HTU31D.humidity_resolution_set, if_neg (not_not_intro hv)]

/-- Unfolding of the temperature resolution setter on a valid label. -/
lemma temp_set_register (st : HTU31D) {v : String} (hv : v ∈ _TEMP_RES) :
    HTU31D.temp_resolution_set st v =
      ({ st with _conversion_command :=
          (st._conversion_command &&& 0xF9) ||| (_TEMP_RES.indexOf v) <<< 1 }, none) := by
  rw [HTU31D.temp_resolution_set, if_neg (not_not_intro hv)]

/-- The index of a valid humidity label is below 4. -/
lemma indexOf_lt_four_hum {v : String} (hv : v ∈ _HUMIDITY_RES) :
    _HUMIDITY_RES.indexOf v < 4 := by
  have := List.indexOf_lt_length.mpr hv
  simpa [_HUMIDITY_RES] using this

/-- The index of a valid temperature label is below 4. -/
lemma indexOf_lt_four_temp {v : String} (hv : v ∈ _TEMP_RES) :
    _TEMP_RES.indexOf v < 4 := by
  have := List.indexOf_lt_length.mpr hv
  simpa [_TEMP_RES] using this

set_option maxRecDepth 100000 in
/-- Bit arithmetic of the two setters on 8-bit registers and 2-bit indices:
writing one field recovers the index on readback and preserves the other
field, the opcode bits, and the 8-bit range. -/
lemma resolution_bits_core : ∀ c < 256, ∀ i < 4,
    (((c &&& 0xE7) ||| i <<< 3) >>> 3) &&& 3 = i ∧
    (((c &&& 0xE7) ||| i <<< 3) >>> 1) &&& 3 = (c >>> 1) &&& 3 ∧
    ((c &&& 0xE7) ||| i <<< 3) &&& 0xE1 = c &&& 0xE1 ∧
    ((c &&& 0xE7) ||| i <<< 3) < 256 ∧
    (((c &&& 0xF9) ||| i <<< 1) >>> 1) &&& 3 = i ∧
    (((c &&& 0xF9) ||| i <<< 1) >>> 3) &&& 3 = (c >>> 3) &&& 3 ∧
    ((c &&& 0xF9) ||| i <<< 1) &&& 0xE1 = c &&& 0xE1 ∧
    ((c &&& 0xF9) ||| i <<< 1) < 256 := by decide

/-- C3: setting either resolution and reading it back returns the same label,
and leaves the other 2-bit field and the opcode bits of the register
unchanged, for every 8-bit register value and each of the four labels of
either table. -/
theorem C3_resolution_roundtrip (st : HTU31D) (h : st._conversion_command < 256) :
    (∀ v ∈ _HUMIDITY_RES,
      HTU31D.humidity_resolution (HTU31D.humidity_resolution_set st v).1 = some v ∧
      ((HTU31D.humidity_resolution_set st v).1._conversion_command >>> 1) &&& 3 =
        (st._conversion_command >>> 1) &&& 3 ∧
      (HTU31D.humidity_resolution_set st v).1._conversion_command &&& 0xE1 =
        st._conversion_command &&& 0xE1) ∧
    (∀ v ∈ _TEMP_RES,
      HTU31D.temp_resolution (HTU31D.temp_resolution_set st v).1 = some v ∧
      ((HTU31D.temp_resolution_set st v).1._conversion_command >>> 3) &&& 3 =
        (st._conversion_command >>> 3) &&& 3 ∧
      (HTU31D.temp_resolution_set st v).1._conversion_command &&& 0xE1 =
        st._conversion_command &&& 0xE1) := by
  constructor
  · intro v hv
    have hcore := resolution_bits_core st._conversion_command h
      (_HUMIDITY_RES.indexOf v) (indexOf_lt_four_hum hv)
    rw [humidity_set_register st hv]
    dsimp only
    refine ⟨?_, hcore.2.1, hcore.2.2.1⟩
    rw [HTU31D.humidity_resolution]
    dsimp only
    rw [hcore.1]
    exact List.indexOf_get? hv
  · intro v hv
    have hcore := resolution_bits_core st._conversion_command h
      (_TEMP_RES.indexOf v) (indexOf_lt_four_temp hv)
    rw [temp_set_register st hv]
    dsimp only
    refine ⟨?_, hcore.2.2.2.2.2.1, hcore.2.2.2.2.2.2.1⟩
    rw [HTU31D.temp_resolution]
    dsimp only
    rw [hcore.2.2.2.2.1]
    exact List.indexOf_get? hv

/-- C3 witness: from register 0x40, setting and reading back the finest
humidity label. -/
theorem C3_witness :
    ({ address := 0x40, _conversion_command := 0x40, _heater := false } :
      HTU31D)._conversion_command < 256 ∧
    HTU31D.humidity_resolution
        (HTU31D.humidity_resolution_set
          { address := 0x40, _conversion_command := 0x40, _heater := false } "0.007%").1 =
      some "0.007%" :=
  ⟨by decide,
   ((C3_resolution_roundtrip
      { address := 0x40, _conversion_command := 0x40, _heater := false }
      (by decide)).1 "0.007%" (by decide)).1⟩

/-- The register invariant along every reachable state: bits outside the two
resolution fields equal the base opcode pattern, and the register stays an
8-bit value. -/
lemma reachable_register (st : HTU31D) (h : Reachable st) :
    st._conversion_command &&& 0xE1 = 0x40 ∧ st._conversion_command < 256 := by
  induction h with
  | init bus address =>
    exact ⟨(by decide : (0x40 : Nat) &&& 0xE1 = 0x40), (by decide : (0x40 : Nat) < 256)⟩
  | reset bus st _ _ =>
    exact ⟨(by decide : (0x40 : Nat) &&& 0xE1 = 0x40), (by decide : (0x40 : Nat) < 256)⟩
  | humiditySet st v _ ih =>
    by_cases hv : v ∈ _HUMIDITY_RES
    · rw [humidity_set_register st hv]
      dsimp only
      have hcore := resolution_bits_core st._conversion_command ih.2
        (_HUMIDITY_RES.indexOf v) (indexOf_lt_four_hum hv)
      refine ⟨?_, hcore.2.2.2.1⟩
      rw [hcore.2.2.1]
      exact ih.1
    · rw [HTU31D.humidity_resolution_set, if_pos hv]
      exact ih
  | tempSet st v _ ih =>
    by_cases hv : v ∈ _TEMP_RES
    · rw [temp_set_register st hv]
      dsimp only
      have hcore := resolution_bits_core st._conversion_command ih.2
        (_TEMP_RES.indexOf v) (indexOf_lt_four_temp hv)
      refine ⟨?_, hcore.2.2.2.2.2.2.2⟩
      rw [hcore.2.2.2.2.2.2.1]
      exact ih.1
    · rw [HTU31D.temp_resolution_set, if_pos hv]
      exact ih

/-- C7: in every state reachable through construction, reset and the two
resolution setters, the register bits outside the two resolution fields
equal the base conversion opcode pattern (register AND 0xE1 is 0x40), and
each setter changes only its own 2-bit field, leaving the other field and
the opcode bits untouched. -/
theorem C7_reachable_invariant (st : HTU31D) (h : Reachable st) :
    st._conversion_command &&& 0xE1 = 0x40 ∧
    (∀ v, ((HTU31D.humidity_resolution_set st v).1._conversion_command >>> 1) &&& 3 =
        (st._conversion_command >>> 1) &&& 3 ∧
      (HTU31D.humidity_resolution_set st v).1._conversion_command &&& 0xE1 =
        st._conversion_command &&& 0xE1) ∧
    (∀ v, ((HTU31D.temp_resolution_set st v).1._conversion_command >>> 3) &&& 3 =
        (st._conversion_command >>> 3) &&& 3 ∧
      (HTU31D.temp_resolution_set st v).1._conversion_command &&& 0xE1 =
        st._conversion_command &&& 0xE1) := by
  obtain ⟨hinv, hlt⟩ := reachable_register st h
  refine ⟨hinv, ?_, ?_⟩
  · intro v
    by_cases hv : v ∈ _HUMIDITY_RES
    · rw [humidity_set_register st hv]
      dsimp only
      have hcore := resolution_bits_core st._conversion_command hlt
        (_HUMIDITY_RES.indexOf v) (indexOf_lt_four_hum hv)
      exact ⟨hcore.2.1, hcore.2.2.1⟩
    · rw [HTU31D.humidity_resolution_set, if_pos hv]
      exact ⟨rfl, rfl⟩
  · intro v
    by_cases hv : v ∈ _TEMP_RES
    · rw [temp_set_register st hv]
      dsimp only
      have hcore := resolution_bits_core st._conversion_command hlt
        (_TEMP_RES.indexOf v) (indexOf_lt_four_temp hv)
      exact ⟨hcore.2.2.2.2.2.1, hcore.2.2.2.2.2.2.1⟩
    · rw [HTU31D.temp_resolution_set, if_pos hv]
      exact ⟨rfl, rfl⟩

/-- C7 witness at the freshly constructed session. -/
theorem C7_witness :
    (HTU31D.init { writeOk := true, readByte := fun _ => 0 }
      0x40).1._conversion_command &&& 0xE1 = 0x40 :=
  (C7_reachable_invariant _
    (Reachable.init { writeOk := true, readByte := fun _ => 0 } 0x40)).1
